import Mathlib

/-!
# Verification of the pmevo-eval instruction canonicalization and matching engine

Shallow embedding of `pmevo_eval/eval.py`: the `_OperandRe` rewrite rules
(a regular-expression substitution followed by an `<EVAL:...>` arithmetic
expansion pass), the two canonicalization pipelines, the instruction index and
matcher of `PmevoMapping.map_instructions`, and the facade-level operations
(`__init__` path check, `cycles_for`, `ipc_for`, memoization).

Strings are modelled as `List Char`.  The regular expressions occurring in the
two rule tables only ever quantify single character classes, so the matcher
below implements exactly the atoms needed: literal runs, greedy `c+` / `c*`
over a character class, one capturing group of the form `(c+)`, and the `$`
anchor.  All definitions are structurally recursive and therefore executable
by kernel reduction (`decide` / `rfl`).
-/

namespace PmevoEval

/-! ## Character classes of the rule patterns -/

/-- The character classes that occur in the rule tables of `eval.py`. -/
inductive CClass where
  /-- `[0-9]` and `\d` (ASCII digits; the inputs here are ASCII) -/
  | digit
  /-- `\D` -/
  | nondigit
  /-- `[A-Z]` -/
  | upper
  /-- `[0-9x]` -/
  | digitOrX
  /-- `[^\]]` -/
  | notRBrack
  /-- `.` (any character except a newline) -/
  | dot
deriving DecidableEq

/-- Does character `ch` belong to the class? -/
def CClass.check : CClass → Char → Bool
  | .digit, ch => ch.isDigit
  | .nondigit, ch => !ch.isDigit
  | .upper, ch => 'A' ≤ ch && ch ≤ 'Z'
  | .digitOrX, ch => ch.isDigit || ch = 'x'
  | .notRBrack, ch => ch ≠ ']'
  | .dot, ch => ch ≠ '\n'

/-! ## Regular-expression atoms -/

/-- One atom of a rule pattern.  Every quantifier in the source patterns
applies to a single character class, which is all this matcher supports. -/
inductive RAtom where
  /-- a literal character sequence -/
  | lit (cs : List Char)
  /-- `c+`, greedy -/
  | plus (c : CClass)
  /-- `c*`, greedy -/
  | star (c : CClass)
  /-- `(c+)`: the (single) capturing group of a pattern, greedy -/
  | group (c : CClass)
  /-- `$` end anchor (no input here contains a newline) -/
  | eos

/-- Length of the maximal run of characters of class `c` at the front of `s`. -/
def runLen (c : CClass) : List Char → Nat
  | [] => 0
  | ch :: rest => if c.check ch then runLen c rest + 1 else 0

/-- `[hi, hi-1, ..., lo]` (empty when `hi < lo`): the candidate repeat counts
of a greedy quantifier, longest first. -/
def countdown (hi lo : Nat) : List Nat :=
  (List.range (hi + 1 - lo)).map (fun i => hi - i)

/-- First `some` value of `f` over the list of candidates, in order. -/
def firstSome (f : Nat → Option α) : List Nat → Option α
  | [] => none
  | k :: ks =>
    match f k with
    | some r => some r
    | none => firstSome f ks

/-- Backtracking matcher: match the atom sequence at the start of `s`.
On success, return the remaining suffix of `s` and the text captured by the
group, if the pattern has one.  Greedy quantifiers try the longest repeat
count first, exactly like Python's `re` backtracking. -/
def matchAtoms : List RAtom → List Char → Option (List Char × Option (List Char))
  | [], s => some (s, none)
  | .lit cs :: rest, s =>
    if cs.isPrefixOf s then matchAtoms rest (s.drop cs.length) else none
  | .eos :: rest, s =>
    if s.isEmpty then matchAtoms rest s else none
  | .plus c :: rest, s =>
    firstSome (fun k => matchAtoms rest (s.drop k)) (countdown (runLen c s) 1)
  | .star c :: rest, s =>
    firstSome (fun k => matchAtoms rest (s.drop k)) (countdown (runLen c s) 0)
  | .group c :: rest, s =>
    firstSome (fun k => (matchAtoms rest (s.drop k)).map (fun r => (r.1, some (s.take k))))
      (countdown (runLen c s) 1)

/-! ## Replacement templates and substitution -/

/-- One piece of a replacement template: literal text or the `\1`
back-reference to the capturing group. -/
inductive TmplPiece where
  | lit (cs : List Char)
  | ref1

/-- Instantiate a replacement template with the captured group text.
(Whenever one of the source patterns matches, its group has matched too,
so the `Option.getD` default is never used on the rule tables.) -/
def renderTmpl (tmpl : List TmplPiece) (cap : Option (List Char)) : List Char :=
  tmpl.foldr
    (fun p acc =>
      match p with
      | .lit cs => cs ++ acc
      | .ref1 => cap.getD [] ++ acc)
    []

/-- Worker for `pysub`, structurally recursive on a fuel that starts at the
string length.  A match always consumes at least one character on the rule
patterns (each starts with a literal or a `+` class), so the inner length
guard never fails on them and the fuel never runs out. -/
def pysubGo (re : List RAtom) (tmpl : List TmplPiece) : Nat → List Char → List Char
  | 0, s => s
  | fuel + 1, s =>
    match matchAtoms re s with
    | some (rem, cap) =>
      if rem.length < s.length then renderTmpl tmpl cap ++ pysubGo re tmpl fuel rem
      else s
    | none =>
      match s with
      | [] => []
      | ch :: rest => ch :: pysubGo re tmpl fuel rest

/-- Python `re.sub`: replace every non-overlapping match, scanning left to
right and taking the leftmost match at each step. -/
def pysub (re : List RAtom) (tmpl : List TmplPiece) (s : List Char) : List Char :=
  pysubGo re tmpl s.length s

/-! ## Python string helpers -/

/-- Index of the first occurrence of `needle` in `hay`; Python `str.find`
(which returns `-1` on absence, here `none`). -/
def findSub (needle : List Char) : List Char → Option Nat
  | [] => if needle.isEmpty then some 0 else none
  | s@(_ :: rest) =>
    if needle.isPrefixOf s then some 0
    else (findSub needle rest).map (· + 1)

/-- Python `str.strip(chars)`: drop characters satisfying `p` from both ends. -/
def pyStrip (p : Char → Bool) (s : List Char) : List Char :=
  ((s.dropWhile p).reverse.dropWhile p).reverse

/-- Python `str.split(sep)` (full split; `"".split(sep) = [""]`,
adjacent separators yield empty fields). -/
def splitAll (sep : Char) : List Char → List (List Char)
  | [] => [[]]
  | ch :: rest =>
    match splitAll sep rest with
    | [] => [[]]
    | grp :: grps => if ch = sep then [] :: grp :: grps else (ch :: grp) :: grps

/-- Python `str.split(sep, 1)`: split on the first occurrence of `sep`;
`none` when `sep` does not occur (the one-element result list). -/
def splitFirst (sep : Char) : List Char → Option (List Char × List Char)
  | [] => none
  | ch :: rest =>
    if ch = sep then some ([], rest)
    else (splitFirst sep rest).map (fun p => (ch :: p.1, p.2))

/-- Is `needle` a contiguous substring of `hay` (Python's `in` on strings)? -/
def containsSub (needle hay : List Char) : Bool :=
  (List.range (hay.length + 1)).any (fun i => needle.isPrefixOf (hay.drop i))

/-- Digits of a decimal numeral, `none` on a non-digit or the empty string. -/
def natOfDigits (ds : List Char) : Option Nat :=
  if ds.isEmpty || !(ds.all Char.isDigit) then none
  else some (ds.foldl (fun acc ch => acc * 10 + (ch.toNat - '0'.toNat)) 0)

/-- Python `int(str)` on the strings that occur here: optional surrounding
whitespace, an optional single sign, then a non-empty digit run.  (Digit-group
underscores, accepted by Python, do not occur in this code's data.) -/
def pyInt (s : List Char) : Option Int :=
  match pyStrip Char.isWhitespace s with
  | '+' :: ds => (natOfDigits ds).map Int.ofNat
  | '-' :: ds => (natOfDigits ds).map (fun n => -(n : Int))
  | ds => (natOfDigits ds).map Int.ofNat

/-- `map(int, expr.strip().split("x"))` followed by
`reduce(lambda x, y: x * y, numbers)`: the product of the `x`-separated
integers, `none` when any token fails to parse (a raised `ValueError`). -/
def pyEvalExpr (expr : List Char) : Option Int := do
  let toks := splitAll 'x' (pyStrip Char.isWhitespace expr)
  let vs ← toks.mapM pyInt
  match vs with
  | [] => none
  | v :: rest => some (rest.foldl (· * ·) v)

/-- The literal marker scanned for by `_OperandRe.apply`. -/
def evalMarker : List Char := '<' :: 'E' :: 'V' :: 'A' :: 'L' :: ':' :: []

/-- Worker for `evalLoop`.  A successful step always splices in a decimal
string strictly shorter than the `<EVAL:...>` span it replaces, so the string
shrinks and fuel equal to the initial length suffices; the 0-fuel marker case
is unreachable.  When the marker has no closing `>` the Python loop either
raises (`int` on a malformed slice) or runs forever; both outcomes are
modelled as `none` (no normal result). -/
def evalLoopGo : Nat → List Char → Option (List Char)
  | 0, s =>
    match findSub evalMarker s with
    | none => some s
    | some _ => none
  | fuel + 1, s =>
    match findSub evalMarker s with
    | none => some s
    | some i =>
      match findSub ['>'] (s.drop i) with
      | none => none
      | some d =>
        let j := i + d
        let expr := (s.drop (i + 6)).take (j - (i + 6))
        match pyEvalExpr expr with
        | none => none
        | some v =>
          let s' := s.take i ++ (toString v).toList ++ s.drop (j + 1)
          if s'.length < s.length then evalLoopGo fuel s' else none

/-- The `while True` loop of `_OperandRe.apply`: repeatedly find the leftmost
`<EVAL:...>` span and splice in the decimal string of the product of the
`x`-separated integers it encloses, until no marker remains. -/
def evalLoop (s : List Char) : Option (List Char) :=
  evalLoopGo s.length s

/-! ## `_OperandRe` -/

/-- `_OperandRe`: a compiled pattern plus a replacement template.  `patstr`
keeps the original pattern text for reference, as the Python class does. -/
structure OperandRe where
  patstr : String
  pattern : List RAtom
  replacement : List TmplPiece

/-- `_OperandRe.apply`: run the pattern substitution over `val`, then the
`<EVAL:...>` expansion loop. -/
def OperandRe.apply (r : OperandRe) (val : List Char) : Option (List Char) :=
  evalLoop (pysub r.pattern r.replacement val)

/-! ## The two rule tables of `PmevoMapping` -/

/-- `_OperandRe(r"\(\(REG:[A-Z]+:G:([0-9]+)\)\)", r"GPR\1")` -/
def pmevo_reg_g_re : OperandRe :=
  ⟨"\\(\\(REG:[A-Z]+:G:([0-9]+)\\)\\)",
   [.lit "((REG:".toList, .plus .upper, .lit ":G:".toList, .group .digit, .lit "))".toList],
   [.lit "GPR".toList, .ref1]⟩

/-- `_OperandRe(r"\(\(REG:[A-Z]+:V:([0-9]+)\)\)", r"VR\1")` -/
def pmevo_reg_v_re : OperandRe :=
  ⟨"\\(\\(REG:[A-Z]+:V:([0-9]+)\\)\\)",
   [.lit "((REG:".toList, .plus .upper, .lit ":V:".toList, .group .digit, .lit "))".toList],
   [.lit "VR".toList, .ref1]⟩

/-- `_OperandRe(r"\(\(IMM:([0-9]+)\)\)", r"IMM\1")` -/
def pmevo_imm_re : OperandRe :=
  ⟨"\\(\\(IMM:([0-9]+)\\)\\)",
   [.lit "((IMM:".toList, .group .digit, .lit "))".toList],
   [.lit "IMM".toList, .ref1]⟩

/-- `_OperandRe(r"\(\(DIV:([0-9]+)\)\)", r"GPR\1")` -/
def pmevo_div_re : OperandRe :=
  ⟨"\\(\\(DIV:([0-9]+)\\)\\)",
   [.lit "((DIV:".toList, .group .digit, .lit "))".toList],
   [.lit "GPR".toList, .ref1]⟩

/-- `_OperandRe(r"byte_ptr_\[[^\]]+\]", r"MEM8")` -/
def pmevo_mem8_re : OperandRe :=
  ⟨"byte_ptr_\\[[^\\]]+\\]",
   [.lit "byte_ptr_[".toList, .plus .notRBrack, .lit "]".toList],
   [.lit "MEM8".toList]⟩

/-- `_OperandRe(r"dword_ptr_\[[^\]]+\]", r"MEM32")` -/
def pmevo_mem32_re : OperandRe :=
  ⟨"dword_ptr_\\[[^\\]]+\\]",
   [.lit "dword_ptr_[".toList, .plus .notRBrack, .lit "]".toList],
   [.lit "MEM32".toList]⟩

/-- `_OperandRe(r"qword_ptr_\[[^\]]+\]", r"MEM64")` -/
def pmevo_mem64_re : OperandRe :=
  ⟨"qword_ptr_\\[[^\\]]+\\]",
   [.lit "qword_ptr_[".toList, .plus .notRBrack, .lit "]".toList],
   [.lit "MEM64".toList]⟩

/-- `_OperandRe(r"xmmword_ptr_\[[^\]]+\]", r"MEM128")` -/
def pmevo_mem128_re : OperandRe :=
  ⟨"xmmword_ptr_\\[[^\\]]+\\]",
   [.lit "xmmword_ptr_[".toList, .plus .notRBrack, .lit "]".toList],
   [.lit "MEM128".toList]⟩

/-- `_OperandRe(r"ymmword_ptr_\[[^\]]+\]", r"MEM256")` -/
def pmevo_mem256_re : OperandRe :=
  ⟨"ymmword_ptr_\\[[^\\]]+\\]",
   [.lit "ymmword_ptr_[".toList, .plus .notRBrack, .lit "]".toList],
   [.lit "MEM256".toList]⟩

/-- `_OperandRe(r"\[[^\]]+\]", r"ADDR64")` -/
def pmevo_addr_re : OperandRe :=
  ⟨"\\[[^\\]]+\\]",
   [.lit "[".toList, .plus .notRBrack, .lit "]".toList],
   [.lit "ADDR64".toList]⟩

/-- `PmevoMapping._pmevo_operands_re`: the ordered reference-convention rule set. -/
def pmevo_operands_re : List OperandRe :=
  [pmevo_reg_g_re, pmevo_reg_v_re, pmevo_imm_re, pmevo_div_re,
   pmevo_mem8_re, pmevo_mem32_re, pmevo_mem64_re, pmevo_mem128_re,
   pmevo_mem256_re, pmevo_addr_re]

/-- `_OperandRe(r"MEM\d+\D+([0-9x]+)$", r"MEM<EVAL:\1>")` -/
def palmed_mem_re : OperandRe :=
  ⟨"MEM\\d+\\D+([0-9x]+)$",
   [.lit "MEM".toList, .plus .digit, .plus .nondigit, .group .digitOrX, .eos],
   [.lit "MEM<EVAL:".toList, .ref1, .lit ">".toList]⟩

/-- `_OperandRe(r"GPR(\d+).*$", r"GPR\1")` -/
def palmed_gpr_re : OperandRe :=
  ⟨"GPR(\\d+).*$",
   [.lit "GPR".toList, .group .digit, .star .dot, .eos],
   [.lit "GPR".toList, .ref1]⟩

/-- `_OperandRe(r"ADDR(\d+).*$", r"ADDR\1")` -/
def palmed_addr_re : OperandRe :=
  ⟨"ADDR(\\d+).*$",
   [.lit "ADDR".toList, .group .digit, .star .dot, .eos],
   [.lit "ADDR".toList, .ref1]⟩

/-- `_OperandRe(r"VR(\d+).*$", r"VR\1")` -/
def palmed_vr_re : OperandRe :=
  ⟨"VR(\\d+).*$",
   [.lit "VR".toList, .group .digit, .star .dot, .eos],
   [.lit "VR".toList, .ref1]⟩

/-- `_OperandRe(r"IMM\D+([0-9]+)$", r"IMM\1")` -/
def palmed_imm_re : OperandRe :=
  ⟨"IMM\\D+([0-9]+)$",
   [.lit "IMM".toList, .plus .nondigit, .group .digit, .eos],
   [.lit "IMM".toList, .ref1]⟩

/-- `PmevoMapping._palmed_operands_re`: the ordered target-convention rule set. -/
def palmed_operands_re : List OperandRe :=
  [palmed_mem_re, palmed_gpr_re, palmed_addr_re, palmed_vr_re, palmed_imm_re]

/-! ## Canonicalization -/

/-- A canonical key: `(mnemonic, tuple of canonicalized operands)`. -/
abbrev CKey := List Char × List (List Char)

/-- The inner loop of `canonicalize_with`: feed one operand through every
rule of the rule set, in order (`for op_re in regexps: op = op_re.apply(op)`).
`none` when some `apply` raises. -/
def fold_operand (regexps : List OperandRe) (op : List Char) : Option (List Char) :=
  regexps.foldlM (fun o r => r.apply o) op

/-- `canonicalize_with(mnemonic, ops_orig, regexps)`: canonicalize every
operand with the rule set and pair the results with the mnemonic. -/
def canonicalize_with (mnemonic : List Char) (ops_orig : List (List Char))
    (regexps : List OperandRe) : Option CKey :=
  (ops_orig.mapM (fold_operand regexps)).map (fun ops => (mnemonic, ops))

/-- `canonicalize_pmevo_instr`, applied to the instruction's `name` string:
split once on the first `_`; the operand-list part is whitespace-stripped and
split on commas, and each operand token is stripped of `_` on both ends.  When
there is no underscore the tuple unpacking raises `ValueError` and the
`except` branch yields the whole name with zero operands. -/
def canonicalize_pmevo_instr (name : List Char) : Option CKey :=
  match splitFirst '_' name with
  | some (mnemonic, ops_str) =>
    canonicalize_with mnemonic
      ((splitAll ',' (pyStrip Char.isWhitespace ops_str)).map (pyStrip (· = '_')))
      pmevo_operands_re
  | none => canonicalize_with name [] pmevo_operands_re

/-- `canonicalize_palmed_instr`, applied to the result of the target
instruction's `name()`: split once on the first `_`, then split the operand
part on every `_` (no stripping); same zero-operand fallback. -/
def canonicalize_palmed_instr (name : List Char) : Option CKey :=
  match splitFirst '_' name with
  | some (mnemonic, ops_str) =>
    canonicalize_with mnemonic (splitAll '_' ops_str) palmed_operands_re
  | none => canonicalize_with name [] palmed_operands_re

/-! ## Python dictionaries -/

/-- `d[k] = v` on an insertion-ordered dictionary modelled as an association
list: overwrite in place if the key is present, else append. -/
def dinsert [DecidableEq α] (k : α) (v : β) : List (α × β) → List (α × β)
  | [] => [(k, v)]
  | (k', v') :: rest => if k' = k then (k, v) :: rest else (k', v') :: dinsert k v rest

/-- Dictionary lookup. -/
def dlookup [DecidableEq α] (k : α) : List (α × β) → Option β
  | [] => none
  | (k', v') :: rest => if k' = k then some v' else dlookup k rest

/-! ## Instruction index and matcher -/

/-- Modelled from the spec: reference instructions (class `Insn` of
`pmevo_eval.utils.architecture`, whose source is not included) expose a `name`
string; distinct instruction objects may coincide in name, which the `uid`
field accounts for. -/
structure Insn where
  name : List Char
  uid : Nat
deriving DecidableEq

/-- The first loop of `map_instructions`:
`canonical_to_pmevo[canonicalize_pmevo_instr(insn)] = insn` over the reference
instruction set, duplicate keys silently overwritten.  `none` when some
canonicalization raises. -/
def build_canonical_to_pmevo : List Insn → List (CKey × Insn) → Option (List (CKey × Insn))
  | [], acc => some acc
  | insn :: rest, acc =>
    match canonicalize_pmevo_instr insn.name with
    | none => none
    | some key => build_canonical_to_pmevo rest (dinsert key insn acc)

/-- The second loop of `map_instructions`: map each target instruction to the
index entry of its canonical key, or to `None` (the miss is only logged). -/
def build_insn_mapping {P : Type} [DecidableEq P] (pname : P → List Char)
    (canonical_to_pmevo : List (CKey × Insn)) :
    List P → List (P × Option Insn) → Option (List (P × Option Insn))
  | [], acc => some acc
  | insn :: rest, acc =>
    match canonicalize_palmed_instr (pname insn) with
    | none => none
    | some canonical =>
      match dlookup canonical canonical_to_pmevo with
      | none => build_insn_mapping pname canonical_to_pmevo rest (dinsert insn none acc)
      | some pmevo => build_insn_mapping pname canonical_to_pmevo rest (dinsert insn (some pmevo) acc)

/-- The body of `map_instructions` past the cache check: build the index from
the reference instruction set, then resolve every target instruction. -/
def map_instructions_compute {P : Type} [DecidableEq P] (pname : P → List Char)
    (pmevo_iset : List Insn) (palmed_iset : List P) : Option (List (P × Option Insn)) := do
  let canonical_to_pmevo ← build_canonical_to_pmevo pmevo_iset []
  build_insn_mapping pname canonical_to_pmevo palmed_iset []

/-! ## The facade -/

/-- The state of a `PmevoMapping` object.  The externally loaded pieces are
modelled from the spec: `insn_list` stands for `self.mapping.arch.insn_list()`
(the reference instruction set) and `execute` for the cycle count returned by
`self.processor.execute(...)["cycles"]` (a black-box cost function). -/
structure PmevoMapping (P : Type) where
  arch_name : List Char
  insn_list : List Insn
  execute : List Insn → ℚ
  palmed_to_pmevo : Option (List (P × Option Insn))

/-- The recompute path of `map_instructions`: compute the mapping, store it in
`self._palmed_to_pmevo` and return it. -/
def PmevoMapping.map_instructions_fresh {P : Type} [DecidableEq P] (pname : P → List Char)
    (s : PmevoMapping P) (palmed_iset : List P) :
    Option (List (P × Option Insn) × PmevoMapping P) :=
  (map_instructions_compute pname s.insn_list palmed_iset).map
    (fun r => (r, { s with palmed_to_pmevo := some r }))

/-- `PmevoMapping.map_instructions`.  The guard is Python's
`if self._palmed_to_pmevo:`: the cached dictionary is returned only when it is
truthy, i.e. not `None` and non-empty; an empty cached mapping falls through
to a recomputation. -/
def PmevoMapping.map_instructions {P : Type} [DecidableEq P] (pname : P → List Char)
    (s : PmevoMapping P) (palmed_iset : List P) :
    Option (List (P × Option Insn) × PmevoMapping P) :=
  match s.palmed_to_pmevo with
  | some m =>
    if m.isEmpty then s.map_instructions_fresh pname palmed_iset else some (m, s)
  | none => s.map_instructions_fresh pname palmed_iset

/-- `PmevoMapping.cycles_for`: delegate to the cost function. -/
def PmevoMapping.cycles_for {P : Type} (s : PmevoMapping P) (insns : List Insn) : ℚ :=
  s.execute insns

/-- Python's `/`: raises `ZeroDivisionError` on a zero divisor, otherwise the
exact quotient. -/
def pyDiv (a b : ℚ) : Option ℚ :=
  if b = 0 then none else some (a / b)

/-- `PmevoMapping.ipc_for`: `len(insns) / self.cycles_for(insns)`. -/
def PmevoMapping.ipc_for {P : Type} (s : PmevoMapping P) (insns : List Insn) : Option ℚ :=
  pyDiv (insns.length : ℚ) (s.cycles_for insns)

/-- How `PmevoMapping.__init__` can fail: a failed `assert` statement
(`AssertionError`) or the explicit `ArchitectureNotFound`. -/
inductive InitError where
  | assertionError
  | architectureNotFound (arch : List Char)
deriving DecidableEq

/-- `PmevoMapping.__init__`, with the filesystem abstracted as the predicate
`is_file` on paths.  The `assert "/" not in arch_name and ".." not in
arch_name` runs first, before the file path is even formed; the body after the
existence check (opening and parsing the mapping JSON, building the processor)
is modelled from the spec as succeeding once the file exists. -/
def pmevoMappingInit (is_file : List Char → Bool) (arch_name : List Char) :
    Except InitError Unit :=
  if !(containsSub "/".toList arch_name) && !(containsSub "..".toList arch_name) then
    let mapping_path := "data/".toList ++ arch_name ++ "/mapping_pmevo.json".toList
    if !(is_file mapping_path) then .error (.architectureNotFound arch_name)
    else .ok ()
  else .error .assertionError

/-! ## Concrete instances used by the example theorems

Target instruction types are generic in the source (`PALMED_INSTR_T`, any
hashable type exposing `name()`); `Nat` with an explicit name function serves
as a concrete instance. -/

/-- The reference instruction of the round-trip example as the spec writes its
name (operands separated by `_`). -/
def c1_ref_orig : Insn := ⟨"MOV_((REG:GPR:G:8))_((IMM:32))".toList, 0⟩

/-- The round-trip reference instruction with the comma operand separator the
reference decomposition actually splits on. -/
def c1_ref : Insn := ⟨"MOV_((REG:GPR:G:8)),((IMM:32))".toList, 0⟩

/-- `name()` of the spec's round-trip target instruction. -/
def c1_pname_orig : Nat → List Char := fun _ => "MOV_GPR8extra_IMM32suffix".toList

/-- `name()` of a target instruction whose IMM operand has its size suffix in
the position the target rule set actually normalizes. -/
def c1_pname : Nat → List Char := fun _ => "MOV_GPR8extra_IMMsuffix32".toList

/-- Facade state holding the (repaired) round-trip reference instruction. -/
def c1_s0 : PmevoMapping Nat := ⟨"SKL".toList, [c1_ref], fun _ => 0, none⟩

/-- `c1_s0` after the mapping has been computed and cached. -/
def c1_s1 : PmevoMapping Nat :=
  { c1_s0 with palmed_to_pmevo := some [(0, some c1_ref)] }

/-- A target name function mapping every instruction to a delimiter-free name. -/
def c3_pname : Nat → List Char := fun _ => "NOP".toList

/-- A facade state with an empty reference instruction set and no cache. -/
def c3_s0 : PmevoMapping Nat := ⟨"SKL".toList, [], fun _ => 0, none⟩

/-- `c3_s0` after a first `map_instructions` call with an empty argument list:
the cached mapping is the empty (falsy) dictionary. -/
def c3_s1 : PmevoMapping Nat := { c3_s0 with palmed_to_pmevo := some [] }

/-- `c3_s1` after a second call with the one-instruction list `[5]`. -/
def c3_s2 : PmevoMapping Nat := { c3_s1 with palmed_to_pmevo := some [(5, none)] }

/-- `c3_s0` after a first call with the non-empty argument list `[7]`. -/
def c3w_s1 : PmevoMapping Nat := { c3_s0 with palmed_to_pmevo := some [(7, none)] }

/-- A facade state whose cost function returns one cycle for any sequence. -/
def c9_one : PmevoMapping Nat := ⟨"SKL".toList, [], fun _ => 1, none⟩

/-- A reference instruction whose canonical key is `("ADD", ("IMM8",))`. -/
def cADD_ref : Insn := ⟨"ADD_((IMM:8))".toList, 0⟩

/-- An instruction index holding `cADD_ref` under its canonical key. -/
def c7_idx : List (CKey × Insn) := [(("ADD".toList, ["IMM8".toList]), cADD_ref)]

/-- Target names: instruction `1` matches `cADD_ref`'s key, instruction `2`
misses. -/
def c7_pname : Nat → List Char := fun n => if n = 1 then "ADD_IMMx8".toList else "SUB".toList

/-- The mapping produced for targets `[1, 2]` against `c7_idx`: a hit and a
miss. -/
def c7_r : List (Nat × Option Insn) := [(1, some cADD_ref), (2, none)]

/-- First reference instruction of the index-collision example. -/
def c8_i1 : Insn := ⟨"MOV_IMM8".toList, 0⟩

/-- Second reference instruction of the collision example: a different name
canonicalizing to the same key as `c8_i1`. -/
def c8_i2 : Insn := ⟨"MOV_((IMM:8))".toList, 1⟩

/-- The canonical key both collision instructions map to. -/
def c8_k : CKey := ("MOV".toList, ["IMM8".toList])

/-- The index built from `[c8_i1, c8_i2]`: the later instruction won. -/
def c8_idx : List (CKey × Insn) := [(c8_k, c8_i2)]

/-- Uncached facade state over the one-instruction reference set `[cADD_ref]`. -/
def c10_s0 : PmevoMapping Nat := ⟨"SKL".toList, [cADD_ref], fun _ => 0, none⟩

/-- The mapping `c10_s0` produces for the target list `[1, 2]`. -/
def c10_r : List (Nat × Option Insn) := [(1, some cADD_ref), (2, none)]

/-- `c10_s0` with `c10_r` cached. -/
def c10_s1 : PmevoMapping Nat := { c10_s0 with palmed_to_pmevo := some c10_r }

/-! ## Helper lemmas -/

theorem splitFirst_eq_none (sep : Char) (l : List Char) (h : ∀ c ∈ l, c ≠ sep) :
    splitFirst sep l = none := by
  induction l with
  | nil => rfl
  | cons c rest ih =>
    simp only [splitFirst]
    rw [if_neg (h c (List.mem_cons_self c rest)), ih (fun x hx => h x (List.mem_cons_of_mem c hx))]
    rfl

theorem dlookup_dinsert_self [DecidableEq α] (k : α) (v : β) (d : List (α × β)) :
    dlookup k (dinsert k v d) = some v := by
  induction d with
  | nil => simp [dinsert, dlookup]
  | cons kv rest ih =>
    obtain ⟨k', v'⟩ := kv
    by_cases h : k' = k
    · simp [dinsert, dlookup, h]
    · simp [dinsert, dlookup, h, ih]

theorem dlookup_dinsert_ne [DecidableEq α] {q k : α} (hne : q ≠ k) (v : β) (d : List (α × β)) :
    dlookup q (dinsert k v d) = dlookup q d := by
  have hkq : ¬(k = q) := fun hkq => hne hkq.symm
  induction d with
  | nil => simp [dinsert, dlookup, hkq]
  | cons kv rest ih =>
    obtain ⟨k', v'⟩ := kv
    by_cases h : k' = k
    · subst h
      simp [dinsert, dlookup, hkq]
    · simp [dinsert, dlookup, h, ih]

theorem dlookup_dinsert_cases [DecidableEq α] {q k : α} {v w : β} {d : List (α × β)}
    (h : dlookup q (dinsert k v d) = some w) : (q = k ∧ w = v) ∨ dlookup q d = some w := by
  by_cases hq : q = k
  · subst hq
    rw [dlookup_dinsert_self] at h
    exact Or.inl ⟨rfl, (Option.some.injEq _ _ ▸ h).symm⟩
  · rw [dlookup_dinsert_ne hq] at h
    exact Or.inr h

theorem dlookup_dinsert_isSome [DecidableEq α] (q k : α) (v : β) (d : List (α × β)) :
    (dlookup q (dinsert k v d)).isSome = true ↔ q = k ∨ (dlookup q d).isSome = true := by
  by_cases hq : q = k
  · subst hq
    simp [dlookup_dinsert_self]
  · simp [dlookup_dinsert_ne hq, hq]

theorem map_instructions_cached {P : Type} [DecidableEq P] (pname : P → List Char)
    (s : PmevoMapping P) (l : List P) (m : List (P × Option Insn))
    (hm : s.palmed_to_pmevo = some m) (hne : m ≠ []) :
    s.map_instructions pname l = some (m, s) := by
  cases m with
  | nil => exact absurd rfl hne
  | cons a as => simp [PmevoMapping.map_instructions, hm]

theorem map_instructions_cache_set {P : Type} [DecidableEq P] (pname : P → List Char)
    (s : PmevoMapping P) (l : List P) (r : List (P × Option Insn)) (s' : PmevoMapping P)
    (h : s.map_instructions pname l = some (r, s')) :
    s'.palmed_to_pmevo = some r := by
  have hfresh : ∀ (_ : s.map_instructions_fresh pname l = some (r, s')),
      s'.palmed_to_pmevo = some r := by
    intro h2
    unfold PmevoMapping.map_instructions_fresh at h2
    cases hc : map_instructions_compute pname s.insn_list l with
    | none =>
      rw [hc] at h2
      simp at h2
    | some r0 =>
      rw [hc] at h2
      simp only [Option.map_some', Option.some.injEq, Prod.mk.injEq] at h2
      obtain ⟨h3, h4⟩ := h2
      subst h4
      subst h3
      rfl
  cases hm : s.palmed_to_pmevo with
  | none =>
    refine hfresh ?_
    unfold PmevoMapping.map_instructions at h
    rw [hm] at h
    exact h
  | some m =>
    unfold PmevoMapping.map_instructions at h
    rw [hm] at h
    have h2 : (if m.isEmpty = true then s.map_instructions_fresh pname l
        else some (m, s)) = some (r, s') := h
    cases he : m.isEmpty with
    | true =>
      rw [if_pos he] at h2
      exact hfresh h2
    | false =>
      rw [if_neg (by simp [he])] at h2
      simp only [Option.some.injEq, Prod.mk.injEq] at h2
      obtain ⟨h3, h4⟩ := h2
      subst h4
      rw [hm, h3]

theorem build_insn_mapping_lookup {P : Type} [DecidableEq P] (pname : P → List Char)
    (idx : List (CKey × Insn)) :
    ∀ (l : List P) (acc r : List (P × Option Insn)),
      build_insn_mapping pname idx l acc = some r →
      ∀ (p : P) (k : CKey), canonicalize_palmed_instr (pname p) = some k →
        (p ∈ l ∨ dlookup p acc = some (dlookup k idx)) →
        dlookup p r = some (dlookup k idx) := by
  intro l
  induction l with
  | nil =>
    intro acc r h p k _ hmem
    have hr : acc = r := by simpa [build_insn_mapping] using h
    rcases hmem with hmem | hmem
    · exact absurd hmem (List.not_mem_nil p)
    · rw [← hr]
      exact hmem
  | cons q rest ih =>
    intro acc r h p k hk hmem
    cases hq : canonicalize_palmed_instr (pname q) with
    | none => simp [build_insn_mapping, hq] at h
    | some kq =>
      simp only [build_insn_mapping, hq] at h
      have h' : build_insn_mapping pname idx rest (dinsert q (dlookup kq idx) acc) = some r := by
        cases hl : dlookup kq idx with
        | none =>
          rw [hl] at h
          exact h
        | some pm =>
          rw [hl] at h
          exact h
      apply ih (dinsert q (dlookup kq idx) acc) r h' p k hk
      rcases hmem with hmem | hmem
      · rcases List.mem_cons.mp hmem with hpq | hpr
        · subst hpq
          right
          rw [hq] at hk
          injection hk with hkk
          subst hkk
          exact dlookup_dinsert_self _ _ _
        · exact Or.inl hpr
      · by_cases hpq : p = q
        · subst hpq
          right
          rw [hq] at hk
          injection hk with hkk
          subst hkk
          exact dlookup_dinsert_self _ _ _
        · right
          rw [dlookup_dinsert_ne hpq]
          exact hmem

theorem build_canonical_append (l1 l2 : List Insn) (acc : List (CKey × Insn)) :
    build_canonical_to_pmevo (l1 ++ l2) acc
      = (build_canonical_to_pmevo l1 acc).bind (build_canonical_to_pmevo l2) := by
  induction l1 generalizing acc with
  | nil => simp [build_canonical_to_pmevo]
  | cons i rest ih =>
    simp only [List.cons_append, build_canonical_to_pmevo]
    cases canonicalize_pmevo_instr i.name with
    | none => rfl
    | some key => exact ih (dinsert key i acc)

theorem build_insn_mapping_keys {P : Type} [DecidableEq P] (pname : P → List Char)
    (idx : List (CKey × Insn)) :
    ∀ (l : List P) (acc r : List (P × Option Insn)),
      build_insn_mapping pname idx l acc = some r →
      ∀ p : P, (dlookup p r).isSome = true ↔ (p ∈ l ∨ (dlookup p acc).isSome = true) := by
  intro l
  induction l with
  | nil =>
    intro acc r h p
    have hr : acc = r := by simpa [build_insn_mapping] using h
    subst hr
    simp
  | cons q rest ih =>
    intro acc r h p
    cases hq : canonicalize_palmed_instr (pname q) with
    | none => simp [build_insn_mapping, hq] at h
    | some kq =>
      simp only [build_insn_mapping, hq] at h
      have h' : build_insn_mapping pname idx rest (dinsert q (dlookup kq idx) acc) = some r := by
        cases hl : dlookup kq idx with
        | none =>
          rw [hl] at h
          exact h
        | some pm =>
          rw [hl] at h
          exact h
      rw [ih _ r h' p, dlookup_dinsert_isSome p q (dlookup kq idx) acc]
      constructor
      · rintro (hmem | (hpq | hacc))
        · exact Or.inl (List.mem_cons_of_mem q hmem)
        · refine Or.inl ?_
          rw [hpq]
          exact List.mem_cons_self q rest
        · exact Or.inr hacc
      · rintro (hmem | hacc)
        · rcases List.mem_cons.mp hmem with hpq | hpr
          · exact Or.inr (Or.inl hpq)
          · exact Or.inl hpr
        · exact Or.inr (Or.inr hacc)

theorem build_insn_mapping_values {P : Type} [DecidableEq P] (pname : P → List Char)
    (idx : List (CKey × Insn)) :
    ∀ (l : List P) (acc r : List (P × Option Insn)),
      build_insn_mapping pname idx l acc = some r →
      ∀ (p : P) (i : Insn), dlookup p r = some (some i) →
        (∃ k, dlookup k idx = some i) ∨ dlookup p acc = some (some i) := by
  intro l
  induction l with
  | nil =>
    intro acc r h p i hpi
    have hr : acc = r := by simpa [build_insn_mapping] using h
    subst hr
    exact Or.inr hpi
  | cons q rest ih =>
    intro acc r h p i hpi
    cases hq : canonicalize_palmed_instr (pname q) with
    | none => simp [build_insn_mapping, hq] at h
    | some kq =>
      simp only [build_insn_mapping, hq] at h
      have h' : build_insn_mapping pname idx rest (dinsert q (dlookup kq idx) acc) = some r := by
        cases hl : dlookup kq idx with
        | none =>
          rw [hl] at h
          exact h
        | some pm =>
          rw [hl] at h
          exact h
      rcases ih _ r h' p i hpi with hk | hacc
      · exact Or.inl hk
      · rcases dlookup_dinsert_cases hacc with ⟨_, hv⟩ | hacc2
        · exact Or.inl ⟨kq, hv.symm⟩
        · exact Or.inr hacc2

theorem build_canonical_values :
    ∀ (l : List Insn) (acc idx : List (CKey × Insn)),
      build_canonical_to_pmevo l acc = some idx →
      ∀ (k : CKey) (i : Insn), dlookup k idx = some i → i ∈ l ∨ dlookup k acc = some i := by
  intro l
  induction l with
  | nil =>
    intro acc idx h k i hki
    have hr : acc = idx := by simpa [build_canonical_to_pmevo] using h
    subst hr
    exact Or.inr hki
  | cons j rest ih =>
    intro acc idx h k i hki
    cases hj : canonicalize_pmevo_instr j.name with
    | none => simp [build_canonical_to_pmevo, hj] at h
    | some kj =>
      simp only [build_canonical_to_pmevo, hj] at h
      rcases ih _ idx h k i hki with hmem | hacc
      · exact Or.inl (List.mem_cons_of_mem j hmem)
      · rcases dlookup_dinsert_cases hacc with ⟨_, hv⟩ | hacc2
        · refine Or.inl ?_
          rw [hv]
          exact List.mem_cons_self j rest
        · exact Or.inr hacc2

/-! ## Claim theorems -/

/-- C1, counterexample: the spec's round-trip example fails on the code.  The
reference decomposition splits operands on commas, so the underscore-separated
reference name keeps a single fused operand `GPR8_IMM32`; the target operand
`IMM32suffix` is not rewritten by the target IMM rule (which requires a
non-digit right after `IMM`); and the resulting keys differ, so the target
instruction maps to `None` rather than to the reference instruction. -/
theorem claim_C1_counterexample :
    canonicalize_pmevo_instr c1_ref_orig.name = some ("MOV".toList, ["GPR8_IMM32".toList])
    ∧ canonicalize_palmed_instr (c1_pname_orig 0)
        = some ("MOV".toList, ["GPR8".toList, "IMM32suffix".toList])
    ∧ (("MOV".toList, ["GPR8_IMM32".toList]) : CKey)
        ≠ ("MOV".toList, ["GPR8".toList, "IMM32".toList])
    ∧ map_instructions_compute c1_pname_orig [c1_ref_orig] [0] = some [(0, none)] := by
  refine ⟨by decide, by decide, by decide, by decide⟩

/-- C1, amended: with the reference operands comma-separated
(`MOV_((REG:GPR:G:8)),((IMM:32))`) and the target IMM operand written with its
size after a non-digit (`MOV_GPR8extra_IMMsuffix32`), both canonicalize to
`("MOV", ("GPR8", "IMM32"))` and `map_instructions` maps the target
instruction to the reference instruction. -/
theorem claim_C1_roundtrip :
    canonicalize_pmevo_instr c1_ref.name = some ("MOV".toList, ["GPR8".toList, "IMM32".toList])
    ∧ canonicalize_palmed_instr (c1_pname 0)
        = some ("MOV".toList, ["GPR8".toList, "IMM32".toList])
    ∧ PmevoMapping.map_instructions c1_pname c1_s0 [0] = some ([(0, some c1_ref)], c1_s1) := by
  refine ⟨by decide, by decide, rfl⟩

/-- C2, counterexample: an architecture identifier containing `/` makes the
constructor fail with `AssertionError` (the failed `assert`), not with
`ArchitectureNotFound` as the claim states. -/
theorem claim_C2_counterexample :
    pmevoMappingInit (fun _ => true) "a/b".toList = .error .assertionError
    ∧ pmevoMappingInit (fun _ => true) "a/b".toList
        ≠ .error (.architectureNotFound "a/b".toList) := by
  refine ⟨rfl, fun h => ?_⟩
  rw [show pmevoMappingInit (fun _ => true) "a/b".toList = .error .assertionError from rfl] at h
  injection h with h'
  exact absurd h' (by decide)

/-- C2, amended: for every architecture identifier containing `/` or `..`,
construction fails with the assertion error, and it does so for every
filesystem oracle `is_file` alike — i.e. before any filesystem access. -/
theorem claim_C2_path_safety (is_file : List Char → Bool) (arch_name : List Char)
    (h : (containsSub "/".toList arch_name || containsSub "..".toList arch_name) = true) :
    pmevoMappingInit is_file arch_name = .error .assertionError := by
  unfold pmevoMappingInit
  cases h1 : containsSub "/".toList arch_name with
  | false =>
    cases h2 : containsSub "..".toList arch_name with
    | false =>
      rw [h1, h2] at h
      simp at h
    | true => rfl
  | true => rfl

/-- C2 witness: the amended theorem applied to the identifier `x..y` with an
all-true filesystem oracle. -/
theorem claim_C2_path_safety_witness :
    (containsSub "/".toList "x..y".toList || containsSub "..".toList "x..y".toList) = true
    ∧ pmevoMappingInit (fun _ => true) "x..y".toList = .error .assertionError :=
  ⟨by decide, claim_C2_path_safety (fun _ => true) "x..y".toList (by decide)⟩

/-- C4: `_OperandRe.apply` substitutes first and then expands `<EVAL:...>`
markers: the capture `32x4` spliced into the MEM template becomes `128`, a
single-number expression `7` stays `7`, and two markers in one string are
both expanded, left to right. -/
theorem claim_C4_eval_expansion :
    OperandRe.apply palmed_mem_re "MEM8a32x4".toList = some "MEM128".toList
    ∧ OperandRe.apply palmed_mem_re "MEM8a7".toList = some "MEM7".toList
    ∧ OperandRe.apply palmed_mem_re "a<EVAL:2x3>b<EVAL:4x5>c".toList = some "a6b20c".toList := by
  refine ⟨by decide, by decide, by decide⟩

/-- C5, counterexample: the full target rule-set fold is not idempotent.  On
`MEM1xMEM8a4` one fold rewrites only the suffix `MEM8a4` (the match at the
start fails on the first pass because `x` blocks the `[0-9x]+$` group), giving
`MEM1xMEM4`; a second fold then matches the whole string and gives `MEM4`. -/
theorem claim_C5_counterexample :
    fold_operand palmed_operands_re "MEM1xMEM8a4".toList = some "MEM1xMEM4".toList
    ∧ fold_operand palmed_operands_re "MEM1xMEM4".toList = some "MEM4".toList
    ∧ "MEM1xMEM4".toList ≠ "MEM4".toList := by
  refine ⟨by decide, by decide, by decide⟩

/-- C5, amended: idempotence does not hold for every operand string (see the
counterexample), but re-canonicalizing the canonical operand vocabulary leaves
it unchanged: `GPR8`, `VR128`, `IMM32`, `MEM64` and `ADDR64` are fixed points
of both the reference and the target rule-set folds. -/
theorem claim_C5_idempotent_on_canonical_forms :
    fold_operand pmevo_operands_re "GPR8".toList = some "GPR8".toList
    ∧ fold_operand palmed_operands_re "GPR8".toList = some "GPR8".toList
    ∧ fold_operand pmevo_operands_re "VR128".toList = some "VR128".toList
    ∧ fold_operand palmed_operands_re "VR128".toList = some "VR128".toList
    ∧ fold_operand pmevo_operands_re "IMM32".toList = some "IMM32".toList
    ∧ fold_operand palmed_operands_re "IMM32".toList = some "IMM32".toList
    ∧ fold_operand pmevo_operands_re "MEM64".toList = some "MEM64".toList
    ∧ fold_operand palmed_operands_re "MEM64".toList = some "MEM64".toList
    ∧ fold_operand pmevo_operands_re "ADDR64".toList = some "ADDR64".toList
    ∧ fold_operand palmed_operands_re "ADDR64".toList = some "ADDR64".toList := by
  refine ⟨by decide, by decide, by decide, by decide, by decide,
    by decide, by decide, by decide, by decide, by decide⟩

/-- C6: an instruction name with no underscore decomposes, in both
conventions, to the whole name as mnemonic with zero operands, canonicalizing
to `(name, ())`. -/
theorem claim_C6_no_delimiter (name : List Char) (h : name.all (· ≠ '_') = true) :
    canonicalize_pmevo_instr name = some (name, [])
    ∧ canonicalize_palmed_instr name = some (name, []) := by
  have hs : splitFirst '_' name = none := by
    refine splitFirst_eq_none '_' name ?_
    intro c hc
    exact of_decide_eq_true (List.all_eq_true.mp h c hc)
  constructor
  · simp only [canonicalize_pmevo_instr, hs]
    rfl
  · simp only [canonicalize_palmed_instr, hs]
    rfl

/-- C6 witness: the delimiter-free name `FNOP`. -/
theorem claim_C6_no_delimiter_witness :
    "FNOP".toList.all (· ≠ '_') = true
    ∧ canonicalize_pmevo_instr "FNOP".toList = some ("FNOP".toList, [])
    ∧ canonicalize_palmed_instr "FNOP".toList = some ("FNOP".toList, []) :=
  ⟨by decide, (claim_C6_no_delimiter "FNOP".toList (by decide)).1,
    (claim_C6_no_delimiter "FNOP".toList (by decide)).2⟩

/-- C9: `ipc_for` is `len(insns) / cycles_for(insns)`: it raises
(`ZeroDivisionError`, modelled as `none`) exactly when `cycles_for` returns
zero, and otherwise returns the quotient. -/
theorem claim_C9_ipc {P : Type} (s : PmevoMapping P) (insns : List Insn) :
    (s.cycles_for insns = 0 → s.ipc_for insns = none)
    ∧ (s.cycles_for insns ≠ 0 →
        s.ipc_for insns = some ((insns.length : ℚ) / s.cycles_for insns)) := by
  constructor
  · intro h
    simp [PmevoMapping.ipc_for, pyDiv, h]
  · intro h
    simp [PmevoMapping.ipc_for, pyDiv, h]

/-- C3, counterexample: the cache guard is Python truthiness, so an *empty*
first result is not treated as cached.  After a first call with the empty
list (returning the empty mapping), a second call with `[5]` recomputes and
returns a different, non-cached mapping — refuting "every subsequent call
returns the cached result of the first call, with any argument list". -/
theorem claim_C3_counterexample :
    PmevoMapping.map_instructions c3_pname c3_s0 [] = some ([], c3_s1)
    ∧ PmevoMapping.map_instructions c3_pname c3_s1 [5] = some ([(5, none)], c3_s2)
    ∧ ([((5 : Nat), (none : Option Insn))] : List (Nat × Option Insn)) ≠ [] :=
  ⟨rfl, rfl, by decide⟩

/-- C3, amended: once a call to `map_instructions` has returned a *non-empty*
mapping, every subsequent call on the resulting state — with any argument
list — returns that cached mapping and leaves the state unchanged. -/
theorem claim_C3_memoization {P : Type} [DecidableEq P] (pname : P → List Char)
    (s : PmevoMapping P) (inp1 inp2 : List P) (r : List (P × Option Insn))
    (s' : PmevoMapping P)
    (h1 : s.map_instructions pname inp1 = some (r, s')) (h2 : r ≠ []) :
    s'.map_instructions pname inp2 = some (r, s') :=
  map_instructions_cached pname s' inp2 r (map_instructions_cache_set pname s inp1 r s' h1) h2

/-- C3 witness: a first call with `[7]` produces the non-empty mapping
`[(7, None)]`; the amended theorem then gives that a second call with the
different list `[8]` returns the cached mapping unchanged. -/
theorem claim_C3_memoization_witness :
    PmevoMapping.map_instructions c3_pname c3_s0 [7] = some ([(7, none)], c3w_s1)
    ∧ ([((7 : Nat), (none : Option Insn))] ≠ ([] : List (Nat × Option Insn)))
    ∧ PmevoMapping.map_instructions c3_pname c3w_s1 [8] = some ([(7, none)], c3w_s1) :=
  ⟨rfl, by decide,
    claim_C3_memoization c3_pname c3_s0 [7] [8] [(7, none)] c3w_s1 rfl (by decide)⟩

/-- C7: in the mapping built by the matcher loop, every processed target
instruction is bound to exactly the index lookup of its canonical key — the
absence sentinel `None` when the key is absent from the index, and the stored
reference instruction when it is present; the loop returns normally either
way. -/
theorem claim_C7_hit_or_miss {P : Type} [DecidableEq P] (pname : P → List Char)
    (idx : List (CKey × Insn)) (palmed_iset : List P) (r : List (P × Option Insn))
    (hr : build_insn_mapping pname idx palmed_iset [] = some r)
    (p : P) (hp : p ∈ palmed_iset) (k : CKey)
    (hk : canonicalize_palmed_instr (pname p) = some k) :
    dlookup p r = some (dlookup k idx) :=
  build_insn_mapping_lookup pname idx palmed_iset [] r hr p k hk (Or.inl hp)

/-- C7 witness: against the one-entry index `c7_idx`, target `2` (canonical
key `("SUB", ())`, absent) is processed without error and bound to the index
lookup of its key, which is the absence sentinel. -/
theorem claim_C7_hit_or_miss_witness :
    build_insn_mapping c7_pname c7_idx [1, 2] [] = some c7_r
    ∧ (2 : Nat) ∈ [1, 2]
    ∧ canonicalize_palmed_instr (c7_pname 2) = some ("SUB".toList, ([] : List (List Char)))
    ∧ dlookup (2 : Nat) c7_r
        = some (dlookup (("SUB".toList, ([] : List (List Char))) : CKey) c7_idx) :=
  ⟨by decide, by decide, by decide,
    claim_C7_hit_or_miss c7_pname c7_idx [1, 2] c7_r (by decide) 2 (by decide)
      ("SUB".toList, []) (by decide)⟩

/-- C8: when two reference instructions canonicalize to the same key, the
index built by the first loop of `map_instructions` holds the later one under
that key — last write wins — and the build returns normally. -/
theorem claim_C8_last_write_wins (l1 l2 : List Insn) (i1 i2 : Insn) (k : CKey)
    (idx : List (CKey × Insn))
    (h1 : canonicalize_pmevo_instr i1.name = some k)
    (h2 : canonicalize_pmevo_instr i2.name = some k)
    (hb : build_canonical_to_pmevo (l1 ++ i1 :: (l2 ++ [i2])) [] = some idx) :
    dlookup k idx = some i2 := by
  rw [build_canonical_append] at hb
  cases ha : build_canonical_to_pmevo l1 [] with
  | none =>
    rw [ha] at hb
    simp at hb
  | some m1 =>
    rw [ha] at hb
    have hb1 : build_canonical_to_pmevo (i1 :: (l2 ++ [i2])) m1 = some idx := hb
    simp only [build_canonical_to_pmevo, h1] at hb1
    rw [build_canonical_append] at hb1
    cases hc : build_canonical_to_pmevo l2 (dinsert k i1 m1) with
    | none =>
      rw [hc] at hb1
      simp at hb1
    | some m2 =>
      rw [hc] at hb1
      have hb2 : build_canonical_to_pmevo [i2] m2 = some idx := hb1
      simp only [build_canonical_to_pmevo, h2] at hb2
      injection hb2 with hb3
      rw [← hb3]
      exact dlookup_dinsert_self k i2 m2

/-- C8 witness: `MOV_IMM8` and `MOV_((IMM:8))` are distinct reference
instructions with the same canonical key `("MOV", ("IMM8",))`; building the
index over both succeeds and stores the later one. -/
theorem claim_C8_last_write_wins_witness :
    canonicalize_pmevo_instr c8_i1.name = some c8_k
    ∧ canonicalize_pmevo_instr c8_i2.name = some c8_k
    ∧ build_canonical_to_pmevo ([] ++ c8_i1 :: ([] ++ [c8_i2])) [] = some c8_idx
    ∧ dlookup c8_k c8_idx = some c8_i2 :=
  ⟨by decide, by decide, by decide,
    claim_C8_last_write_wins [] [] c8_i1 c8_i2 c8_k c8_idx (by decide) (by decide) (by decide)⟩

/-- C10: on a first (uncached) call, the returned mapping's key set is exactly
the set of input target instructions, and every mapped value is either the
absence sentinel or a reference instruction from the instruction set the index
was built from. -/
theorem claim_C10_first_call_shape {P : Type} [DecidableEq P] (pname : P → List Char)
    (s : PmevoMapping P) (inputs : List P) (r : List (P × Option Insn))
    (s' : PmevoMapping P)
    (hcache : s.palmed_to_pmevo = none)
    (h : s.map_instructions pname inputs = some (r, s')) :
    (∀ p : P, (dlookup p r).isSome = true ↔ p ∈ inputs)
    ∧ (∀ (p : P) (i : Insn), dlookup p r = some (some i) → i ∈ s.insn_list) := by
  have hfresh : s.map_instructions_fresh pname inputs = some (r, s') := by
    unfold PmevoMapping.map_instructions at h
    rw [hcache] at h
    exact h
  unfold PmevoMapping.map_instructions_fresh at hfresh
  cases hcomp : map_instructions_compute pname s.insn_list inputs with
  | none =>
    rw [hcomp] at hfresh
    simp at hfresh
  | some r0 =>
    rw [hcomp] at hfresh
    simp only [Option.map_some', Option.some.injEq, Prod.mk.injEq] at hfresh
    obtain ⟨hr, _⟩ := hfresh
    subst hr
    unfold map_instructions_compute at hcomp
    cases hidx : build_canonical_to_pmevo s.insn_list [] with
    | none =>
      rw [hidx] at hcomp
      simp at hcomp
    | some idx =>
      rw [hidx] at hcomp
      have hbim : build_insn_mapping pname idx inputs [] = some r0 := hcomp
      constructor
      · intro p
        rw [build_insn_mapping_keys pname idx inputs [] r0 hbim p]
        simp [dlookup]
      · intro p i hpi
        rcases build_insn_mapping_values pname idx inputs [] r0 hbim p i hpi with ⟨k, hk⟩ | habs
        · rcases build_canonical_values s.insn_list [] idx hidx k i hk with hmem | habs2
          · exact hmem
          · simp [dlookup] at habs2
        · simp [dlookup] at habs

/-- C10 witness: the uncached call of `c10_s0` on `[1, 2]` yields `c10_r`;
target `1` is a key of the result, and the reference instruction it is mapped
to comes from the reference instruction set. -/
theorem claim_C10_first_call_shape_witness :
    c10_s0.palmed_to_pmevo = none
    ∧ PmevoMapping.map_instructions c7_pname c10_s0 [1, 2] = some (c10_r, c10_s1)
    ∧ ((dlookup (1 : Nat) c10_r).isSome = true ↔ (1 : Nat) ∈ [1, 2])
    ∧ cADD_ref ∈ c10_s0.insn_list :=
  ⟨rfl, rfl,
    (claim_C10_first_call_shape c7_pname c10_s0 [1, 2] c10_r c10_s1 rfl rfl).1 1,
    (claim_C10_first_call_shape c7_pname c10_s0 [1, 2] c10_r c10_s1 rfl rfl).2 1 cADD_ref
      (by decide)⟩

/-- C9 witness: a zero-cycle cost function makes `ipc_for` fail; a one-cycle
cost function yields the quotient. -/
theorem claim_C9_ipc_witness :
    (c3_s0.cycles_for [] = 0 ∧ c3_s0.ipc_for [] = none)
    ∧ (c9_one.cycles_for [cADD_ref] ≠ 0
        ∧ c9_one.ipc_for [cADD_ref]
            = some ((List.length [cADD_ref] : ℚ) / c9_one.cycles_for [cADD_ref])) :=
  ⟨⟨rfl, (claim_C9_ipc c3_s0 []).1 rfl⟩,
    ⟨by norm_num [PmevoMapping.cycles_for, c9_one],
      (claim_C9_ipc c9_one [cADD_ref]).2 (by norm_num [PmevoMapping.cycles_for, c9_one])⟩⟩

end PmevoEval
